import Mathlib

/-!
# Verification of the distributed-network spotify clone

Shallow embedding, in Lean 4, of the parts of the repository
`Curtis-Pearson/distributed-network-spotify-clone` referenced by the
specification's testable properties: the Auth role's cookie manager
(`Server/ServerNodes/AuthNode.py`), the registry's load balancer and the
connection/write plumbing (`SharedNodes/Node.py`), the Content role's
catalog and streaming codec (`Server/ServerNodes/ContentNode.py`), the
Coordinator's node-request handler (`Server/ServerNodes/BootstrapNode.py`)
and the Client's stream decoder (`Client/ClientNodes/ClientNode.py`).

Python strings are modelled as `List Char` (`Chars`) or `String`, byte
strings as `List Nat` with values below 256, and machine words as `Nat`
reduced modulo `2 ^ 32` where the source relies on fixed-width arithmetic.
Randomness, socket outcomes and file-system contents are passed in as
explicit parameters; loops whose termination depends on them take fuel and
return `Option`.
-/

namespace SpotifyClone

/-! ## Auth node: cookie generation (`AuthNode.py`, `AuthNodeCookieManager`)

`_chars = list('abcdefghijklmnopqrstuvwxyzABCDEFGHIJKLMNOPQRSTUVWXYZ0123456789')`.
A cookie candidate is `''.join(random.choice(cls._chars) for _ in range(len(cls._chars)))`:
`len(cls._chars)` characters, each an independent uniform choice from
`_chars`.  The random stream is modelled as `r : Nat → Nat`, consumed at
increasing positions (one position per `random.choice` call); the choice at
position `n` is `_chars[r n % 62]`, so every possible run of the Python
generator corresponds to some `r`. -/

/-- The cookie alphabet `AuthNodeCookieManager._chars`. -/
def cookieChars : List Char :=
  "abcdefghijklmnopqrstuvwxyzABCDEFGHIJKLMNOPQRSTUVWXYZ0123456789".toList

theorem cookieChars_length : cookieChars.length = 62 := by decide

/-- One `random.choice(cls._chars)` at stream position `n`. -/
def cookieChoice (r : Nat → Nat) (n : Nat) : Char :=
  cookieChars.get ⟨r n % 62, by
    have h : cookieChars.length = 62 := cookieChars_length
    exact h ▸ Nat.mod_lt _ (by decide)⟩

/-- One candidate cookie: 62 choices consumed from stream positions
`pos, pos+1, …, pos+61` (the body of the `while True` loop in
`generate_cookie`). -/
def cookieCandidate (r : Nat → Nat) (pos : Nat) : List Char :=
  (List.range 62).map fun i => cookieChoice r (pos + i)

/-- `AuthNodeCookieManager.is_authenticated`: membership of the cookie in
`_client_cookies`. -/
def is_authenticated (cookie : List Char) (client_cookies : List (List Char)) : Bool :=
  decide (cookie ∈ client_cookies)

/-- `AuthNodeCookieManager.generate_cookie`: the retry loop.  Draws
candidates from the stream until one is not already stored, appends it to
`_client_cookies` and returns it.  `fuel` bounds the number of iterations
of the Python `while True` loop (which, against an adversarial random
stream, need not terminate); `pos` is the current random-stream position.
Returns the cookie, the updated `_client_cookies` list and the new stream
position. -/
def generate_cookie (r : Nat → Nat) (client_cookies : List (List Char)) (pos : Nat) :
    Nat → Option (List Char × List (List Char) × Nat)
  | 0 => none
  | fuel + 1 =>
    let new_cookie := cookieCandidate r pos
    if is_authenticated new_cookie client_cookies then
      generate_cookie r client_cookies (pos + 62) fuel
    else
      some (new_cookie, client_cookies ++ [new_cookie], pos + 62)

/-- A sequence of `n` completed login flows: each `LOGIN_DATA` handled in
`AuthNodeThread.handle_client` calls `generate_cookie` once.  Returns the
list of issued cookies in order together with the final `_client_cookies`
list and stream position. -/
def runLogins (r : Nat → Nat) (fuel : Nat) :
    Nat → List (List Char) → Nat → Option (List (List Char) × List (List Char) × Nat)
  | 0, client_cookies, pos => some ([], client_cookies, pos)
  | n + 1, client_cookies, pos =>
    match generate_cookie r client_cookies pos fuel with
    | none => none
    | some (c, cookies₁, pos₁) =>
      match runLogins r fuel n cookies₁ pos₁ with
      | none => none
      | some (issued, cookies₂, pos₂) => some (c :: issued, cookies₂, pos₂)

theorem generate_cookie_spec {r : Nat → Nat} {st : List (List Char)} {pos fuel : Nat}
    {c : List Char} {st' : List (List Char)} {pos' : Nat}
    (h : generate_cookie r st pos fuel = some (c, st', pos')) :
    c ∉ st ∧ st' = st ++ [c] := by
  induction fuel generalizing pos with
  | zero => simp [generate_cookie] at h
  | succ k ih =>
    rw [generate_cookie] at h
    by_cases hmem : cookieCandidate r pos ∈ st
    · rw [if_pos (by simp [is_authenticated, hmem])] at h
      exact ih h
    · rw [if_neg (by simp [is_authenticated, hmem])] at h
      simp only [Option.some.injEq, Prod.mk.injEq] at h
      obtain ⟨rfl, rfl, -⟩ := h
      exact ⟨hmem, rfl⟩

theorem runLogins_fresh {r : Nat → Nat} {fuel : Nat} :
    ∀ {n : Nat} {st : List (List Char)} {pos : Nat} {issued st' : List (List Char)} {pos' : Nat},
      runLogins r fuel n st pos = some (issued, st', pos') →
      issued.Nodup ∧ ∀ x ∈ issued, x ∉ st := by
  intro n
  induction n with
  | zero =>
    intro st pos issued st' pos' h
    simp only [runLogins, Option.some.injEq, Prod.mk.injEq] at h
    obtain ⟨rfl, -, -⟩ := h
    exact ⟨List.nodup_nil, by simp⟩
  | succ k ih =>
    intro st pos issued st' pos' h
    rw [runLogins] at h
    cases hg : generate_cookie r st pos fuel with
    | none => rw [hg] at h; simp at h
    | some v =>
      obtain ⟨c, st₁, pos₁⟩ := v
      rw [hg] at h
      simp only at h
      cases hr : runLogins r fuel k st₁ pos₁ with
      | none => rw [hr] at h; simp at h
      | some w =>
        obtain ⟨issued₂, st₂, pos₂⟩ := w
        rw [hr] at h
        simp only [Option.some.injEq, Prod.mk.injEq] at h
        obtain ⟨rfl, -, -⟩ := h
        obtain ⟨hfresh, happ⟩ := generate_cookie_spec hg
        obtain ⟨hnodup, hall⟩ := ih hr
        subst happ
        refine ⟨List.nodup_cons.mpr ⟨fun hc => ?_, hnodup⟩, ?_⟩
        · exact absurd (by simp : c ∈ st ++ [c]) (by simpa using hall c hc)
        · intro x hx
          rcases List.mem_cons.mp hx with h | h
          · subst h; exact hfresh
          · intro hxst
            exact hall x h (by simp [hxst])

/-- C1: Cookie uniqueness.  Whenever `generate_cookie` returns, the cookie
it returns was not previously in `_client_cookies` and is appended to it
before being returned; consequently a `Nodup` cookie set stays `Nodup`,
and for every completed sequence of `n` login flows the `n` issued cookies
are pairwise distinct. -/
theorem cookie_uniqueness
    (r : Nat → Nat) (st : List (List Char)) (pos fuel : Nat)
    (c : List Char) (st' : List (List Char)) (pos' : Nat)
    (h : generate_cookie r st pos fuel = some (c, st', pos'))
    (n : Nat) (issued st₂ : List (List Char)) (pos₂ : Nat)
    (hrun : runLogins r fuel n st pos = some (issued, st₂, pos₂)) :
    (c ∉ st ∧ st' = st ++ [c] ∧ (st.Nodup → st'.Nodup)) ∧ issued.Nodup := by
  obtain ⟨hfresh, happ⟩ := generate_cookie_spec h
  refine ⟨⟨hfresh, happ, fun hn => ?_⟩, (runLogins_fresh hrun).1⟩
  subst happ
  simpa [List.nodup_append] using ⟨hn, hfresh⟩

/-- Witness for `cookie_uniqueness`: the stream `fun n => n / 62` issues
the candidate `'a' * 62` first and `'b' * 62` second; two login flows
complete and the two cookies are distinct. -/
theorem cookie_uniqueness_witness :
    [cookieCandidate (fun n => n / 62) 0, cookieCandidate (fun n => n / 62) 62].Nodup :=
  (cookie_uniqueness (fun n => n / 62) [] 0 2 (cookieCandidate (fun n => n / 62) 0)
      [cookieCandidate (fun n => n / 62) 0] 62 (by decide) 2
      [cookieCandidate (fun n => n / 62) 0, cookieCandidate (fun n => n / 62) 62]
      [cookieCandidate (fun n => n / 62) 0, cookieCandidate (fun n => n / 62) 62] 124
      (by decide)).2

theorem generate_cookie_is_candidate {r : Nat → Nat} {st : List (List Char)} {pos fuel : Nat}
    {c : List Char} {st' : List (List Char)} {pos' : Nat}
    (h : generate_cookie r st pos fuel = some (c, st', pos')) :
    ∃ p, c = cookieCandidate r p := by
  induction fuel generalizing pos with
  | zero => simp [generate_cookie] at h
  | succ k ih =>
    rw [generate_cookie] at h
    by_cases hmem : cookieCandidate r pos ∈ st
    · rw [if_pos (by simp [is_authenticated, hmem])] at h
      exact ih h
    · rw [if_neg (by simp [is_authenticated, hmem])] at h
      simp only [Option.some.injEq, Prod.mk.injEq] at h
      exact ⟨pos, h.1.symm⟩

/-- C8: every cookie returned by `generate_cookie` is exactly
`len(_chars) = 62` characters long, each drawn from `_chars`
(lower-case letters, upper-case letters and digits), and the cookie is
appended to `_client_cookies` before being returned. -/
theorem cookie_format
    (r : Nat → Nat) (st : List (List Char)) (pos fuel : Nat)
    (c : List Char) (st' : List (List Char)) (pos' : Nat)
    (h : generate_cookie r st pos fuel = some (c, st', pos')) :
    c.length = 62 ∧ c.length = cookieChars.length ∧
      (∀ ch ∈ c, ch ∈ cookieChars) ∧ st' = st ++ [c] := by
  obtain ⟨p, rfl⟩ := generate_cookie_is_candidate h
  refine ⟨by simp [cookieCandidate], by simp [cookieCandidate, cookieChars_length], ?_,
    (generate_cookie_spec h).2⟩
  intro ch hch
  simp only [cookieCandidate, List.mem_map] at hch
  obtain ⟨i, -, rfl⟩ := hch
  exact List.get_mem _ _ _

/-- Witness for `cookie_format` at the constant random stream `fun _ => 0`
(the all-`'a'` cookie) issued into the empty cookie set. -/
theorem cookie_format_witness :
    (cookieCandidate (fun _ => 0) 0).length = 62 ∧
      (cookieCandidate (fun _ => 0) 0).length = cookieChars.length ∧
      (∀ ch ∈ cookieCandidate (fun _ => 0) 0, ch ∈ cookieChars) ∧
      [cookieCandidate (fun _ => 0) 0] = [] ++ [cookieCandidate (fun _ => 0) 0] :=
  cookie_format (fun _ => 0) [] 0 1 (cookieCandidate (fun _ => 0) 0)
    [cookieCandidate (fun _ => 0) 0] 62 (by decide)

/-! ## Node registry and load balancer (`Node.py`, `NodeThreadManager`)

The registry `node_threads` is a Python list of node-thread objects, each
carrying a `conn_type` (role string), a `conn_host`/`conn_port` (listening
address) and an integer `load`.  Objects have identity: `load_balancer`
mutates exactly the selected object.  An entry is modelled as a record
with an `id` field standing for the object's identity. -/

/-- One registered node thread, as seen by `NodeThreadManager`. -/
structure RegEntry where
  id : Nat
  conn_type : String
  conn_host : String
  conn_port : Nat
  load : Int
deriving DecidableEq, Repr

/-- `NodeThreadManager.get_nodes_by_type`: filter the registry by
`conn_type`. -/
def get_nodes_by_type (conn_type : String) (node_threads : List RegEntry) : List RegEntry :=
  node_threads.filter fun node => node.conn_type = conn_type

/-- Python's `min(nodes, key=lambda node: node.load)`: the first element
attaining the minimal key, `none` on an empty list (where Python raises
`ValueError`; `load_balancer` guards against that case). -/
def pyMinByLoad : List RegEntry → Option RegEntry
  | [] => none
  | x :: xs =>
    match pyMinByLoad xs with
    | none => some x
    | some y => if x.load ≤ y.load then some x else some y

/-- The in-place `least_load_node.load += 1`, applied to the entry with the
selected identity. -/
def bumpLoad (sel : Nat) (node_threads : List RegEntry) : List RegEntry :=
  node_threads.map fun x => if x.id = sel then { x with load := x.load + 1 } else x

/-- `NodeThreadManager.load_balancer`: filter by `conn_type`; if any entry
of that role exists, take the one with minimum `load`, increment its
`load` (the returned object carries the incremented load) and return it;
otherwise return `None` and leave the registry untouched. -/
def load_balancer (conn_type : String) (node_threads : List RegEntry) :
    Option RegEntry × List RegEntry :=
  match pyMinByLoad (get_nodes_by_type conn_type node_threads) with
  | none => (none, node_threads)
  | some least_load_node =>
    (some { least_load_node with load := least_load_node.load + 1 },
     bumpLoad least_load_node.id node_threads)

theorem pyMinByLoad_eq_none {l : List RegEntry} : pyMinByLoad l = none ↔ l = [] := by
  cases l with
  | nil => simp [pyMinByLoad]
  | cons x xs =>
    simp only [pyMinByLoad]
    constructor
    · intro h
      cases hm : pyMinByLoad xs with
      | none => rw [hm] at h; simp at h
      | some y => rw [hm] at h; by_cases hle : x.load ≤ y.load <;> simp [hle] at h
    · intro h; simp at h

theorem pyMinByLoad_mem {l : List RegEntry} {e : RegEntry}
    (h : pyMinByLoad l = some e) : e ∈ l := by
  induction l with
  | nil => simp [pyMinByLoad] at h
  | cons x xs ih =>
    simp only [pyMinByLoad] at h
    cases hm : pyMinByLoad xs with
    | none => rw [hm] at h; simp only [Option.some.injEq] at h; simp [h.symm]
    | some y =>
      rw [hm] at h
      simp only at h
      by_cases hle : x.load ≤ y.load
      · rw [if_pos hle] at h; simp only [Option.some.injEq] at h; simp [h.symm]
      · rw [if_neg hle] at h; simp only [Option.some.injEq] at h
        subst h; exact List.mem_cons_of_mem _ (ih hm)

theorem pyMinByLoad_min {l : List RegEntry} :
    ∀ {e : RegEntry}, pyMinByLoad l = some e → ∀ x ∈ l, e.load ≤ x.load := by
  induction l with
  | nil => intro e h; simp [pyMinByLoad] at h
  | cons x xs ih =>
    intro e h
    simp only [pyMinByLoad] at h
    cases hm : pyMinByLoad xs with
    | none =>
      rw [hm] at h; simp only [Option.some.injEq] at h; subst h
      have hnil : xs = [] := pyMinByLoad_eq_none.mp hm
      subst hnil; simp
    | some y =>
      rw [hm] at h
      simp only at h
      by_cases hle : x.load ≤ y.load
      · rw [if_pos hle] at h; simp only [Option.some.injEq] at h; subst h
        intro z hz
        rcases List.mem_cons.mp hz with rfl | hz
        · exact le_refl _
        · exact le_trans hle (ih hm z hz)
      · rw [if_neg hle] at h; simp only [Option.some.injEq] at h; subst h
        intro z hz
        rcases List.mem_cons.mp hz with rfl | hz
        · exact le_of_not_le hle
        · exact ih hm z hz

theorem load_balancer_none {ct : String} {st : List RegEntry}
    (h : get_nodes_by_type ct st = []) : load_balancer ct st = (none, st) := by
  simp [load_balancer, h, pyMinByLoad]

theorem load_balancer_some {ct : String} {st : List RegEntry} {e' : RegEntry}
    {st' : List RegEntry} (h : load_balancer ct st = (some e', st')) :
    ∃ e ∈ get_nodes_by_type ct st,
      (∀ x ∈ get_nodes_by_type ct st, e.load ≤ x.load) ∧
      e' = { e with load := e.load + 1 } ∧ st' = bumpLoad e.id st := by
  rw [load_balancer] at h
  cases hm : pyMinByLoad (get_nodes_by_type ct st) with
  | none => rw [hm] at h; simp at h
  | some e =>
    rw [hm] at h
    simp only [Prod.mk.injEq, Option.some.injEq] at h
    exact ⟨e, pyMinByLoad_mem hm, pyMinByLoad_min hm, h.1.symm, h.2.symm⟩

theorem bumpLoad_conn_type (sel : Nat) (st : List RegEntry) :
    get_nodes_by_type ct (bumpLoad sel st) =
      (get_nodes_by_type ct st).map
        fun x => if x.id = sel then { x with load := x.load + 1 } else x := by
  simp only [get_nodes_by_type, bumpLoad, List.filter_map]
  congr 1
  apply List.filter_congr
  intro x _
  by_cases hid : x.id = sel <;> simp [Function.comp, hid]

theorem filtered_id_nodup {ct : String} {st : List RegEntry}
    (hnodup : (st.map RegEntry.id).Nodup) :
    ((get_nodes_by_type ct st).map RegEntry.id).Nodup :=
  hnodup.sublist (List.Sublist.map _ (List.filter_sublist st))

theorem load_balancer_no_repeat {ct : String} {st st₁ st₂ : List RegEntry}
    {e₁ e₂ : RegEntry} {L : Int}
    (hnodup : (st.map RegEntry.id).Nodup)
    (hlen : 2 ≤ (get_nodes_by_type ct st).length)
    (heq : ∀ x ∈ get_nodes_by_type ct st, x.load = L)
    (h1 : load_balancer ct st = (some e₁, st₁))
    (h2 : load_balancer ct st₁ = (some e₂, st₂)) :
    e₁.id ≠ e₂.id := by
  obtain ⟨f₁, hf₁mem, -, hf₁e, hf₁st⟩ := load_balancer_some h1
  obtain ⟨f₂, hf₂mem, hf₂min, hf₂e, -⟩ := load_balancer_some h2
  subst hf₁st
  have hfnodup : ((get_nodes_by_type ct st).map RegEntry.id).Nodup :=
    filtered_id_nodup hnodup
  -- a second entry of the same role, with a different identity
  have hother : ∃ z ∈ get_nodes_by_type ct st, z.id ≠ f₁.id := by
    rcases hflt : get_nodes_by_type ct st with - | ⟨z₀, - | ⟨z₁, rest⟩⟩
    · rw [hflt] at hlen; simp at hlen
    · rw [hflt] at hlen; simp at hlen
    · rw [hflt] at hfnodup hf₁mem
      have hne : z₀.id ≠ z₁.id := by
        simp only [List.map_cons, List.nodup_cons, List.mem_cons, List.mem_map] at hfnodup
        exact fun hcon => hfnodup.1 (Or.inl hcon)
      rcases List.mem_cons.mp hf₁mem with rfl | -
      · exact ⟨z₁, by simp, fun hcon => hne hcon.symm⟩
      · by_cases hz₀ : z₀.id = f₁.id
        · exact ⟨z₁, by simp, fun hcon => hne (hz₀.trans hcon.symm)⟩
        · exact ⟨z₀, by simp, hz₀⟩
  obtain ⟨z, hzmem, hzne⟩ := hother
  intro hcon
  -- the two returned objects keep the identities of the selected entries
  have he₁id : e₁.id = f₁.id := by rw [hf₁e]
  have he₂id : e₂.id = f₂.id := by rw [hf₂e]
  have hf₂id : f₂.id = f₁.id := by rw [← he₂id, ← hcon, he₁id]
  -- the second selection picked the freshly bumped first entry
  rw [bumpLoad_conn_type] at hf₂mem hf₂min
  obtain ⟨y, hymem, hyeq⟩ := List.mem_map.mp hf₂mem
  have hyid : y.id = f₁.id := by
    by_cases hy : y.id = f₁.id
    · exact hy
    · rw [if_neg hy] at hyeq
      exact absurd (hyeq ▸ hf₂id) hy
  have hyf₁ : y = f₁ := by
    have := List.inj_on_of_nodup_map hfnodup hymem hf₁mem
    exact this (hyid.trans rfl)
  have hf₂load : f₂.load = L + 1 := by
    rw [← hyeq, hyf₁, if_pos rfl]
    simp [heq f₁ hf₁mem]
  -- but the unselected entry still has load L, contradicting minimality
  have hzmem' : (if z.id = f₁.id then { z with load := z.load + 1 } else z) ∈
      (get_nodes_by_type ct st).map
        fun x => if x.id = f₁.id then { x with load := x.load + 1 } else x :=
    List.mem_map_of_mem _ hzmem
  rw [if_neg hzne] at hzmem'
  have := hf₂min z hzmem'
  rw [hf₂load, heq z hzmem] at this
  omega

/-- C2: `load_balancer` (the registry's `selectLeastLoaded`).  (i) With no
registered entry of the requested role it returns `None` and mutates
nothing.  (ii) When it returns an entry, that entry is a registered entry
of the requested role whose load was minimal among all entries of that
role at the time of the call; its load is incremented by one (the returned
object carries the incremented load) and no other entry changes.
(iii) With at least two registered entries of the role all carrying equal
loads, two back-to-back selections with no intervening load change return
two different entries. -/
theorem load_balancer_correct :
    (∀ ct st, get_nodes_by_type ct st = [] → load_balancer ct st = (none, st)) ∧
    (∀ ct st e' st', load_balancer ct st = (some e', st') →
      ∃ e ∈ get_nodes_by_type ct st,
        (∀ x ∈ get_nodes_by_type ct st, e.load ≤ x.load) ∧
        e' = { e with load := e.load + 1 } ∧
        st' = st.map fun x => if x.id = e.id then { x with load := x.load + 1 } else x) ∧
    (∀ ct st st₁ st₂ e₁ e₂ (L : Int), (st.map RegEntry.id).Nodup →
      2 ≤ (get_nodes_by_type ct st).length →
      (∀ x ∈ get_nodes_by_type ct st, x.load = L) →
      load_balancer ct st = (some e₁, st₁) →
      load_balancer ct st₁ = (some e₂, st₂) →
      e₁.id ≠ e₂.id) :=
  ⟨fun _ _ h => load_balancer_none h,
   fun _ _ _ _ h => load_balancer_some h,
   fun _ _ _ _ _ _ _ hn hl he h1 h2 => load_balancer_no_repeat hn hl he h1 h2⟩

/-- Witness for `load_balancer_correct` on a concrete two-entry registry:
an empty-role query returns `None` unchanged, and two successive `AUTH`
selections on equally loaded entries pick the two different entries. -/
theorem load_balancer_correct_witness :
    load_balancer "CONTENT"
        [⟨0, "AUTH", "h0", 10, 0⟩, ⟨1, "AUTH", "h1", 11, 0⟩] =
      (none, [⟨0, "AUTH", "h0", 10, 0⟩, ⟨1, "AUTH", "h1", 11, 0⟩]) ∧
    RegEntry.id ⟨0, "AUTH", "h0", 10, 1⟩ ≠ RegEntry.id ⟨1, "AUTH", "h1", 11, 1⟩ :=
  ⟨load_balancer_correct.1 "CONTENT" [⟨0, "AUTH", "h0", 10, 0⟩, ⟨1, "AUTH", "h1", 11, 0⟩]
      (by decide),
   load_balancer_correct.2.2 "AUTH"
      [⟨0, "AUTH", "h0", 10, 0⟩, ⟨1, "AUTH", "h1", 11, 0⟩]
      [⟨0, "AUTH", "h0", 10, 1⟩, ⟨1, "AUTH", "h1", 11, 0⟩]
      [⟨0, "AUTH", "h0", 10, 1⟩, ⟨1, "AUTH", "h1", 11, 1⟩]
      ⟨0, "AUTH", "h0", 10, 1⟩ ⟨1, "AUTH", "h1", 11, 1⟩ 0
      (by decide) (by decide) (by decide) (by decide) (by decide)⟩

/-! ## Content node: music catalog (`ContentNode.py`, `ContentNodeThread`)

Python strings are modelled as `List Char`; the directory listing
`os.listdir(...)` is a parameter (a list of base names, in directory
order), and `wave.open(...).getframerate()` is a parameter mapping a file
name to its native frame rate. -/

/-- A Python string as a list of characters. -/
abbrev Chars := List Char

/-- Upper-case ASCII letters. -/
def asciiUpper : List Char := "ABCDEFGHIJKLMNOPQRSTUVWXYZ".toList

/-- Lower-case ASCII letters, in the same order. -/
def asciiLower : List Char := "abcdefghijklmnopqrstuvwxyz".toList

/-- First-match association lookup used to express the case table. -/
def lowerAssoc : List (Char × Char) → Char → Option Char
  | [], _ => none
  | (u, l) :: rest, c => if c = u then some l else lowerAssoc rest c

/-- `str.lower` on one character.  The repository's file names and
protocol strings are ASCII, where CPython's `str.lower` maps exactly
`'A'..'Z'` to `'a'..'z'` and fixes every other character. -/
def pyCharLower (c : Char) : Char :=
  match lowerAssoc (asciiUpper.zip asciiLower) c with
  | some l => l
  | none => c

/-- `str.lower` on a whole string. -/
def lowerL (cs : Chars) : Chars := cs.map pyCharLower

/-- The extension string `".wav"`. -/
def wavExt : Chars := ['.', 'w', 'a', 'v']

/-- `file.lower().endswith(".wav")`. -/
def endsWav (cs : Chars) : Bool := decide (wavExt <:+ lowerL cs)

/-- `os.path.splitext(name)[0]` for a base name (no path separators):
split at the rightmost `'.'`, except that a name whose characters before
that dot are all dots (such as `".wav"` or `"..wav"`) is not split. -/
def stemList (cs : Chars) : Chars :=
  let r := cs.reverse
  let a := r.takeWhile fun c => decide (c ≠ '.')
  if a.length = r.length then cs
  else
    let b := r.drop (a.length + 1)
    if b.any fun c => decide (c ≠ '.') then b.reverse else cs

/-- The set comprehension in `ContentNodeThread.get_music_files`:
`{os.path.splitext(file)[0].lower() for file in files if file.lower().endswith(".wav")}`.
Python's `set` is modelled as a duplicate-free list; only membership in it
is relied upon (iteration order of a Python `str` set is unspecified). -/
def get_music_files_set (files : List Chars) : List Chars :=
  (((files.filter endsWav).map fun file => lowerL (stemList file))).dedup

/-- `'|'.join(names)`. -/
def pipeJoin : List Chars → Chars
  | [] => []
  | [x] => x
  | x :: y :: xs => x ++ '|' :: pipeJoin (y :: xs)

/-- `message.split('|')` — the decoding the Client applies to every
received control packet (`ClientNode.read`). -/
def pipeSplit : Chars → List Chars
  | [] => [[]]
  | c :: cs =>
    match pipeSplit cs with
    | [] => [[]]
    | g :: gs => if c = '|' then [] :: g :: gs else (c :: g) :: gs

/-- `ContentNodeThread.process_file_request` (together with the
`NO_FILES_AVAILABLE` push inside `get_music_files`): the single message
pushed in reply to `FILE_REQUEST`, as a function of the directory
listing. -/
def process_file_request (files : List Chars) : List Chars :=
  if files.isEmpty then ["NO_FILES_AVAILABLE".toList]
  else ["FILES_AVAILABLE|".toList ++ pipeJoin (get_music_files_set files)]

/-- The sample-rate policy in the `FILE_NAME` branch of
`ContentNodeThread.handle_client`: `rate = waveform.getframerate(); if
rate == 22050: rate = rate / 2`.  Python's `/` yields the float
`11025.0`; the Client parses the rendered value with
`int(float(messages[1]))`, recovering the integer `11025 = 22050 / 2`
exactly, so the numeric value is modelled in `Nat`. -/
def streamRate (rate : Nat) : Nat := if rate = 22050 then rate / 2 else rate

/-- Outcome of the `FILE_NAME` branch of `ContentNodeThread.handle_client`. -/
inductive FileNameReply where
  | noFiles
  | streamModeEnter (rate : Nat)
  | invalid
  | stopIterationCrash
deriving DecidableEq, Repr

/-- The `FILE_NAME` branch of `ContentNodeThread.handle_client`: refresh
the catalog (replying `NO_FILES_AVAILABLE` on an empty directory); if the
requested name is in the catalog, locate the actual file via
`next(file for file in os.listdir(...) if file.lower() == name + ".wav")`
(an unguarded `next`, which raises `StopIteration` when no directory entry
matches) and reply `STREAM_MODE_ENTER` with the policy-adjusted frame
rate; otherwise reply `FILE_NAME_INVALID`. -/
def handle_file_name (files : List Chars) (frameRate : Chars → Nat) (name : Chars) :
    FileNameReply :=
  if files.isEmpty then .noFiles
  else if name ∈ get_music_files_set files then
    match files.find? fun file => decide (lowerL file = name ++ wavExt) with
    | some file => .streamModeEnter (streamRate (frameRate file))
    | none => .stopIterationCrash
  else .invalid

theorem pipeSplit_no_pipe {cs : Chars} (h : '|' ∉ cs) : pipeSplit cs = [cs] := by
  induction cs with
  | nil => rfl
  | cons c cs ih =>
    have hc : c ≠ '|' := fun hcon => h (hcon ▸ List.mem_cons_self c cs)
    have hcs : '|' ∉ cs := fun hcon => h (List.mem_cons_of_mem c hcon)
    rw [pipeSplit, ih hcs]
    simp [hc]

theorem pipeSplit_ne_nil (cs : Chars) : pipeSplit cs ≠ [] := by
  cases cs with
  | nil => simp [pipeSplit]
  | cons c cs =>
    rw [pipeSplit]
    cases pipeSplit cs with
    | nil => simp
    | cons g gs => by_cases h : c = '|' <;> simp [h]

theorem pipeSplit_append_pipe {xs : Chars} (ys : Chars) (h : '|' ∉ xs) :
    pipeSplit (xs ++ '|' :: ys) = xs :: pipeSplit ys := by
  induction xs with
  | nil =>
    simp only [List.nil_append, pipeSplit]
    cases hs : pipeSplit ys with
    | nil => exact absurd hs (pipeSplit_ne_nil ys)
    | cons g gs => simp
  | cons c cs ih =>
    have hc : c ≠ '|' := fun hcon => h (hcon ▸ List.mem_cons_self c cs)
    have hcs : '|' ∉ cs := fun hcon => h (List.mem_cons_of_mem c hcon)
    rw [List.cons_append, pipeSplit, ih hcs]
    simp [hc]

theorem pipeSplit_pipeJoin {names : List Chars} (hne : names ≠ [])
    (h : ∀ nm ∈ names, '|' ∉ nm) : pipeSplit (pipeJoin names) = names := by
  induction names with
  | nil => exact absurd rfl hne
  | cons x xs ih =>
    cases xs with
    | nil => exact pipeSplit_no_pipe (h x (by simp))
    | cons y ys =>
      rw [pipeJoin, pipeSplit_append_pipe _ (h x (by simp))]
      rw [ih (by simp) fun nm hnm => h nm (List.mem_cons_of_mem x hnm)]

/-- C4 counterexample: a directory containing only `readme.txt` has an
empty catalog, yet the reply to `FILE_REQUEST` is `FILES_AVAILABLE|`
(with an empty name list), not `NO_FILES_AVAILABLE`: the code keys the
`NO_FILES_AVAILABLE` reply on the directory listing being empty, not on
the catalog being empty. -/
theorem file_request_empty_catalog_counterexample :
    get_music_files_set ["readme.txt".toList] = [] ∧
    process_file_request ["readme.txt".toList] = ["FILES_AVAILABLE|".toList] ∧
    process_file_request ["readme.txt".toList] ≠ ["NO_FILES_AVAILABLE".toList] := by
  refine ⟨by decide, by decide, by decide⟩

/-- C4 (amended): the Content role replies to `FILE_REQUEST` with exactly
one message.  It is `NO_FILES_AVAILABLE` exactly when the directory
listing is empty; for a non-empty directory it is `FILES_AVAILABLE|`
followed by the pipe-joined catalog (possibly an empty name list), and
when the catalog is non-empty (and its names are pipe-free, as every
name derived from a path-legal file name is) the client's `split('|')`
recovers `FILES_AVAILABLE` followed by exactly the catalog names. -/
theorem file_request_reply (files : List Chars)
    (hnames : ∀ nm ∈ get_music_files_set files, '|' ∉ nm) :
    (process_file_request files).length = 1 ∧
    (files = [] ↔ process_file_request files = ["NO_FILES_AVAILABLE".toList]) ∧
    (files ≠ [] →
      process_file_request files =
        ["FILES_AVAILABLE".toList ++ '|' :: pipeJoin (get_music_files_set files)] ∧
      (get_music_files_set files ≠ [] →
        pipeSplit ("FILES_AVAILABLE".toList ++ '|' :: pipeJoin (get_music_files_set files)) =
          "FILES_AVAILABLE".toList :: get_music_files_set files)) := by
  refine ⟨?_, ⟨?_, ?_⟩, ?_⟩
  · by_cases h : files = [] <;> simp [process_file_request, h]
  · intro h; simp [process_file_request, h]
  · intro h
    by_cases hf : files = []
    · exact hf
    · exfalso
      simp [process_file_request, hf] at h
  · intro h
    constructor
    · simp [process_file_request, h]
    · intro hcat
      rw [pipeSplit_append_pipe _ (by decide)]
      rw [pipeSplit_pipeJoin hcat hnames]

/-- Witness for `file_request_reply` on the directory `["Song1.wav",
"song2.WAV"]`. -/
theorem file_request_reply_witness :
    (process_file_request ["Song1.wav".toList, "song2.WAV".toList]).length = 1 ∧
    (["Song1.wav".toList, "song2.WAV".toList] = ([] : List Chars) ↔
      process_file_request ["Song1.wav".toList, "song2.WAV".toList] =
        ["NO_FILES_AVAILABLE".toList]) ∧
    (["Song1.wav".toList, "song2.WAV".toList] ≠ ([] : List Chars) →
      process_file_request ["Song1.wav".toList, "song2.WAV".toList] =
        ["FILES_AVAILABLE".toList ++
          '|' :: pipeJoin (get_music_files_set ["Song1.wav".toList, "song2.WAV".toList])] ∧
      (get_music_files_set ["Song1.wav".toList, "song2.WAV".toList] ≠ [] →
        pipeSplit ("FILES_AVAILABLE".toList ++
            '|' :: pipeJoin (get_music_files_set ["Song1.wav".toList, "song2.WAV".toList])) =
          "FILES_AVAILABLE".toList ::
            get_music_files_set ["Song1.wav".toList, "song2.WAV".toList])) :=
  file_request_reply ["Song1.wav".toList, "song2.WAV".toList] (by decide)

/-! ## Catalog/validation consistency (C10) and sample-rate policy (C6) -/

/-- A directory entry that case-insensitively ends in `".wav"` but whose
characters before that final extension are all dots (`".wav"`, `"..wav"`,
…).  For such names `os.path.splitext` refuses to split, so the catalog
name it produces is not `stem + ".wav"`-shaped. -/
def wavDegenerate (f : Chars) : Bool :=
  endsWav f && (f.take (f.length - 4)).all fun c => decide (c = '.')

theorem lowerAssoc_mem {m : List (Char × Char)} {c l : Char}
    (h : lowerAssoc m c = some l) : (c, l) ∈ m := by
  induction m with
  | nil => simp [lowerAssoc] at h
  | cons p rest ih =>
    obtain ⟨u, v⟩ := p
    rw [lowerAssoc] at h
    by_cases hc : c = u
    · rw [if_pos hc] at h
      simp only [Option.some.injEq] at h
      simp [hc, h]
    · rw [if_neg hc] at h
      exact List.mem_cons_of_mem _ (ih h)

theorem pyCharLower_eq_dot {c : Char} (h : pyCharLower c = '.') : c = '.' := by
  rw [pyCharLower] at h
  cases hl : lowerAssoc (asciiUpper.zip asciiLower) c with
  | none => rw [hl] at h; exact h
  | some l =>
    rw [hl] at h
    subst h
    have := (List.of_mem_zip (lowerAssoc_mem hl)).2
    simp [asciiLower] at this

theorem ne_dot_of_lower {c l : Char} (h : pyCharLower c = l) (hl : l ≠ '.') : c ≠ '.' := by
  intro hcon
  subst hcon
  have h2 : pyCharLower '.' = '.' := by decide
  exact hl ((h2.symm.trans h).symm ▸ rfl)

theorem stemList_of_wav {g : Chars} {c0 c1 c2 c3 : Char}
    (h0 : pyCharLower c0 = '.') (h1 : pyCharLower c1 = 'w')
    (h2 : pyCharLower c2 = 'a') (h3 : pyCharLower c3 = 'v')
    (hg : ∃ ch ∈ g, ch ≠ '.') :
    stemList (g ++ [c0, c1, c2, c3]) = g := by
  have hc0 : c0 = '.' := pyCharLower_eq_dot h0
  have hc1 : c1 ≠ '.' := ne_dot_of_lower h1 (by decide)
  have hc2 : c2 ≠ '.' := ne_dot_of_lower h2 (by decide)
  have hc3 : c3 ≠ '.' := ne_dot_of_lower h3 (by decide)
  subst hc0
  have hrev : (g ++ ['.', c1, c2, c3]).reverse = c3 :: c2 :: c1 :: '.' :: g.reverse := by
    simp
  rw [stemList]
  simp only [hrev]
  have htake : List.takeWhile (fun c => decide (c ≠ '.')) (c3 :: c2 :: c1 :: '.' :: g.reverse) =
      [c3, c2, c1] := by
    simp [List.takeWhile_cons, hc1, hc2, hc3]
  rw [htake]
  have hlen : ([c3, c2, c1] : Chars).length ≠ (c3 :: c2 :: c1 :: '.' :: g.reverse).length := by
    simp
  rw [if_neg hlen]
  have hdrop : (c3 :: c2 :: c1 :: '.' :: g.reverse).drop (([c3, c2, c1] : Chars).length + 1) =
      g.reverse := by
    simp
  rw [hdrop]
  obtain ⟨ch, hchmem, hchne⟩ := hg
  have hany : g.reverse.any (fun c => decide (c ≠ '.')) = true := by
    rw [List.any_eq_true]
    exact ⟨ch, List.mem_reverse.mpr hchmem, by simpa using hchne⟩
  rw [if_pos hany, List.reverse_reverse]

theorem lower_stem_wav {f : Chars} (hw : endsWav f = true) (hd : wavDegenerate f = false) :
    lowerL (stemList f) ++ wavExt = lowerL f := by
  obtain ⟨t, ht⟩ : wavExt <:+ lowerL f := of_decide_eq_true hw
  have hflen : f.length = t.length + 4 := by
    have hlen := congrArg List.length ht
    simp only [List.length_append, lowerL, List.length_map, wavExt,
      List.length_cons, List.length_nil] at hlen
    omega
  obtain ⟨g, w, hsplit, hglen, hwlen, htake⟩ :
      ∃ g w, f = g ++ w ∧ g.length = t.length ∧ w.length = 4 ∧ f.take (f.length - 4) = g := by
    refine ⟨f.take (f.length - 4), f.drop (f.length - 4),
      (List.take_append_drop _ f).symm, ?_, ?_, rfl⟩
    · rw [List.length_take]; omega
    · rw [List.length_drop]; omega
  have hmap : lowerL g ++ lowerL w = t ++ wavExt := by
    calc lowerL g ++ lowerL w = lowerL (g ++ w) := by simp [lowerL]
      _ = lowerL f := by rw [← hsplit]
      _ = t ++ wavExt := ht.symm
  obtain ⟨hgt, hwav⟩ := List.append_inj hmap (by simp only [lowerL, List.length_map]; omega)
  rcases w with - | ⟨a0, w⟩
  · simp at hwlen
  rcases w with - | ⟨a1, w⟩
  · simp at hwlen
  rcases w with - | ⟨a2, w⟩
  · simp at hwlen
  rcases w with - | ⟨a3, w⟩
  · simp at hwlen
  have hwnil : w = [] := by
    have hw0 : w.length = 0 := by simpa using hwlen
    exact List.eq_nil_of_length_eq_zero hw0
  subst hwnil
  simp only [lowerL, List.map_cons, List.map_nil, wavExt, List.cons.injEq, and_true] at hwav
  obtain ⟨h0, h1, h2, h3⟩ := hwav
  have hdeg : (f.take (f.length - 4)).all (fun c => decide (c = '.')) = false := by
    rw [wavDegenerate, hw, Bool.true_and] at hd
    exact hd
  rw [htake] at hdeg
  have hex : ∃ ch ∈ g, ch ≠ '.' := by
    obtain ⟨ch, hmem, hne⟩ := List.all_eq_false.mp hdeg
    exact ⟨ch, hmem, by simpa using hne⟩
  have hstem : stemList f = g := by
    rw [hsplit]
    exact stemList_of_wav h0 h1 h2 h3 hex
  rw [hstem, hgt, ht]

theorem find?_of_exists {α} {p : α → Bool} {l : List α} (h : ∃ x ∈ l, p x = true) :
    ∃ y, l.find? p = some y :=
  Option.isSome_iff_exists.mp (List.find?_isSome.mpr h)

/-- C10 (amended): the catalog listed by `FILE_REQUEST` and the set a
`FILE_NAME` request is validated against are computed by the same rule
(the shared `get_music_files` routine), and file-name matching is
case-insensitive (both sides compare lower-cased data).  Provided the
directory contents are unchanged between the two requests and no `.wav`
directory entry is degenerate (all dots before the final `".wav"`, such
as the literal name `".wav"`), every name contained in the
`FILES_AVAILABLE` reply is accepted by a `FILE_NAME` request for it and
answered with `STREAM_MODE_ENTER` — not `FILE_NAME_INVALID` and not a
crash. -/
theorem catalog_accepted (files : List Chars) (frameRate : Chars → Nat)
    (hgood : ∀ f ∈ files, wavDegenerate f = false) :
    ∀ name ∈ get_music_files_set files,
      ∃ rate, handle_file_name files frameRate name = FileNameReply.streamModeEnter rate := by
  intro name hname
  obtain ⟨f, hfmem, hfname⟩ :
      ∃ f, (f ∈ files ∧ endsWav f = true) ∧ lowerL (stemList f) = name := by
    have h1 := List.mem_dedup.mp hname
    obtain ⟨f, hf, heq⟩ := List.mem_map.mp h1
    exact ⟨f, List.mem_filter.mp hf, heq⟩
  have hlow : lowerL f = name ++ wavExt := by
    rw [← hfname]
    exact (lower_stem_wav hfmem.2 (hgood f hfmem.1)).symm
  have hnonempty : files.isEmpty = false := by
    cases files with
    | nil => exact absurd hfmem.1 (List.not_mem_nil f)
    | cons a l => rfl
  obtain ⟨y, hy⟩ := find?_of_exists
    ⟨f, hfmem.1, decide_eq_true_eq.mpr hlow⟩ (p := fun file => decide (lowerL file = name ++ wavExt))
  refine ⟨streamRate (frameRate y), ?_⟩
  rw [handle_file_name, hnonempty]
  simp only [Bool.false_eq_true, if_false]
  rw [if_pos hname, hy]

/-- Witness for `catalog_accepted`: the single-file directory
`["Song.WAV"]` lists the catalog name `"song"`, and `FILE_NAME|song` is
answered with `STREAM_MODE_ENTER`. -/
theorem catalog_accepted_witness :
    ∃ rate, handle_file_name ["Song.WAV".toList] (fun _ => 44100) "song".toList =
      FileNameReply.streamModeEnter rate :=
  catalog_accepted ["Song.WAV".toList] (fun _ => 44100) (by decide) "song".toList (by decide)

/-- C10 counterexample: the directory entry `".wav"` produces the catalog
name `".wav"` (listed by `FILES_AVAILABLE`), and the `FILE_NAME|.wav`
request for it passes validation but crashes the handler with
`StopIteration` (the unguarded `next(...)` finds no directory entry whose
lower-cased name is `".wav.wav"`) instead of replying
`STREAM_MODE_ENTER`. -/
theorem catalog_dotwav_counterexample :
    ".wav".toList ∈ get_music_files_set [".wav".toList] ∧
    handle_file_name [".wav".toList] (fun _ => 44100) ".wav".toList =
      FileNameReply.stopIterationCrash := by
  exact ⟨by decide, by decide⟩

/-- C6: whenever the Content role accepts a `FILE_NAME` request and
replies `STREAM_MODE_ENTER`, the reported sample rate is the matched
file's native frame rate, except that a native rate of exactly 22050 is
halved to 11025; every other native rate is passed through unchanged. -/
theorem sample_rate_policy (files : List Chars) (frameRate : Chars → Nat) (name : Chars)
    (rate : Nat)
    (h : handle_file_name files frameRate name = FileNameReply.streamModeEnter rate) :
    ∃ file, files.find? (fun file => decide (lowerL file = name ++ wavExt)) = some file ∧
      rate = streamRate (frameRate file) ∧
      (frameRate file = 22050 → rate = 11025 ∧ 2 * rate = frameRate file) ∧
      (frameRate file ≠ 22050 → rate = frameRate file) := by
  rw [handle_file_name] at h
  by_cases hemp : files.isEmpty
  · rw [if_pos hemp] at h
    exact absurd h (by simp)
  · rw [if_neg hemp] at h
    by_cases hmem : name ∈ get_music_files_set files
    · rw [if_pos hmem] at h
      cases hf : files.find? (fun file => decide (lowerL file = name ++ wavExt)) with
      | none => rw [hf] at h; exact absurd h (by simp)
      | some file =>
        rw [hf] at h
        simp only [FileNameReply.streamModeEnter.injEq] at h
        refine ⟨file, rfl, h.symm, ?_, ?_⟩
        · intro h22
          rw [streamRate, h22, if_pos rfl] at h
          omega
        · intro h22
          rw [streamRate, if_neg h22] at h
          omega
    · rw [if_neg hmem] at h
      exact absurd h (by simp)

/-- Witness for `sample_rate_policy`: the native rate 22050 of `"a.wav"`
is reported as 11025. -/
theorem sample_rate_policy_witness :
    ∃ file, ["a.wav".toList].find?
        (fun file => decide (lowerL file = "a".toList ++ wavExt)) = some file ∧
      11025 = streamRate ((fun _ => 22050) file) ∧
      ((fun _ => 22050) file = 22050 → 11025 = 11025 ∧ 2 * 11025 = (fun _ => 22050) file) ∧
      ((fun _ => 22050) file ≠ 22050 → 11025 = (fun _ => 22050) file) :=
  sample_rate_policy ["a.wav".toList] (fun _ => 22050) "a".toList 11025 (by decide)

/-! ## Transport: `NodeConnectionHandler.connect_to_node` (`Node.py`)

One connection attempt can fail in three places, each modelled as an
oracle outcome: an exception while creating/connecting the socket
(`continue` to the next attempt), an exception while waiting for
write-readiness (`return None` immediately), or an `OSError` while
sending the handshake (`continue`).  On success the caller's four-field
handshake is sent and the socket returned.  In every failure branch the
socket just created is closed (`new_sock.close()`) before the next
attempt. -/

inductive AttemptOutcome where
  | connectError
  | selectError
  | sendError
  | ok
deriving DecidableEq, Repr

/-- The handshake `f"{node_type}|{node_name}|{node_host}|{node_port}"`.
`node_host`/`node_port` are kept as strings because Python interpolates
`None` for pure clients. -/
def handshakeMessage (node_type node_name node_host node_port : String) : String :=
  node_type ++ "|" ++ node_name ++ "|" ++ node_host ++ "|" ++ node_port

/-- The attempt loop of `connect_to_node`, from attempt index `i` with
`fuel` attempts remaining.  Returns the handshake sent on the returned
socket (`none` when no connection was made) and the number of attempts
consumed. -/
def connectAttempts (outcomes : Nat → AttemptOutcome) (hs : String) :
    Nat → Nat → Option String × Nat
  | _, 0 => (none, 0)
  | i, fuel + 1 =>
    match outcomes i with
    | .ok => (some hs, 1)
    | .selectError => (none, 1)
    | .connectError =>
      let r := connectAttempts outcomes hs (i + 1) fuel
      (r.1, r.2 + 1)
    | .sendError =>
      let r := connectAttempts outcomes hs (i + 1) fuel
      (r.1, r.2 + 1)

/-- `try_limit = 6` in `connect_to_node`. -/
def try_limit : Nat := 6

/-- `NodeConnectionHandler.connect_to_node`, as a function of the attempt
outcomes and the caller's identity fields. -/
def connect_to_node (outcomes : Nat → AttemptOutcome)
    (node_type node_name node_host node_port : String) : Option String × Nat :=
  connectAttempts outcomes (handshakeMessage node_type node_name node_host node_port) 0 try_limit

theorem connectAttempts_le (outcomes : Nat → AttemptOutcome) (hs : String) :
    ∀ fuel i, (connectAttempts outcomes hs i fuel).2 ≤ fuel := by
  intro fuel
  induction fuel with
  | zero => intro i; simp [connectAttempts]
  | succ k ih =>
    intro i
    rw [connectAttempts]
    cases outcomes i <;> simp only <;> simp [Nat.succ_le_succ (ih (i + 1))]

theorem connectAttempts_none (outcomes : Nat → AttemptOutcome) (hs : String) :
    ∀ fuel i, (∀ j < fuel, outcomes (i + j) ≠ .ok) →
      (connectAttempts outcomes hs i fuel).1 = none := by
  intro fuel
  induction fuel with
  | zero => intro i _; simp [connectAttempts]
  | succ k ih =>
    intro i hno
    rw [connectAttempts]
    have h0 : outcomes i ≠ .ok := by simpa using hno 0 (Nat.succ_pos k)
    have hrest : ∀ j < k, outcomes (i + 1 + j) ≠ .ok := by
      intro j hj
      have := hno (j + 1) (by omega)
      simpa [Nat.add_assoc, Nat.add_comm 1 j] using this
    cases hoc : outcomes i
    · simp only
      exact ih (i + 1) hrest
    · simp only
    · simp only
      exact ih (i + 1) hrest
    · exact absurd hoc h0

theorem connectAttempts_some (outcomes : Nat → AttemptOutcome) (hs s : String) :
    ∀ fuel i, (connectAttempts outcomes hs i fuel).1 = some s → s = hs := by
  intro fuel
  induction fuel with
  | zero => intro i h; simp [connectAttempts] at h
  | succ k ih =>
    intro i h
    rw [connectAttempts] at h
    cases hoc : outcomes i <;> rw [hoc] at h <;> simp only [Option.some.injEq] at h
    · exact ih (i + 1) h
    · exact absurd h (by simp)
    · exact ih (i + 1) h
    · exact h.symm

/-- C5: `connect_to_node` makes at most `try_limit = 6` connection
attempts; if none of the six attempts succeeds it returns `None` (reports
failure rather than raising); and when it returns a socket, the handshake
sent over it is the caller's four fields `role|name|host|port`. -/
theorem connect_to_node_spec (outcomes : Nat → AttemptOutcome)
    (node_type node_name node_host node_port : String) :
    (connect_to_node outcomes node_type node_name node_host node_port).2 ≤ 6 ∧
    ((∀ i < 6, outcomes i ≠ .ok) →
      (connect_to_node outcomes node_type node_name node_host node_port).1 = none) ∧
    (∀ s, (connect_to_node outcomes node_type node_name node_host node_port).1 = some s →
      s = node_type ++ "|" ++ node_name ++ "|" ++ node_host ++ "|" ++ node_port) := by
  refine ⟨connectAttempts_le _ _ _ _, fun hno => ?_, fun s hs => ?_⟩
  · exact connectAttempts_none _ _ _ _ (by simpa using hno)
  · exact connectAttempts_some _ _ _ _ _ hs

/-- Witness for `connect_to_node_spec`: with every attempt failing at the
connect step, the call returns `None`; with an immediately successful
attempt it returns the client's handshake. -/
theorem connect_to_node_spec_witness :
    (connect_to_node (fun _ => .connectError) "CLIENT" "client1" "None" "None").1 = none ∧
    ("CLIENT|client1|None|None" : String) =
      "CLIENT" ++ "|" ++ "client1" ++ "|" ++ "None" ++ "|" ++ "None" :=
  ⟨(connect_to_node_spec (fun _ => .connectError) "CLIENT" "client1" "None" "None").2.1
      (by decide),
   (connect_to_node_spec (fun _ => .ok) "CLIENT" "client1" "None" "None").2.2
      "CLIENT|client1|None|None" (by decide)⟩

/-! ## Coordinator: `BootstrapNodeThread.handle_node_request`
(`BootstrapNode.py`)

The handler loops: select with the load balancer; on a miss spawn
`AuthNode("auth1", …)` or `ContentNode("content1", …)` (both start with
`load = 0` and `conn_type` equal to the wanted role), register it, sleep
briefly, and retry; for any other wanted role it returns silently.  The
spawned node's dynamically bound listening address is a parameter
(`spawnHost`/`spawnPort`, the values its `configure_dynamic_server`
eventually produces; the 0.1-second wait for them is abstracted away), as
is the fresh object identity `newId`.  The loop takes fuel; the theorem
shows fuel 2 always suffices. -/

/-- `f"NODE_FIND_SUCCESS|{messages[1]}|{messages[2]}|{node.conn_host}|{node.conn_port}"`. -/
def node_find_success_message (requester wanted host : String) (port : Nat) : String :=
  "NODE_FIND_SUCCESS|" ++ requester ++ "|" ++ wanted ++ "|" ++ host ++ "|" ++ toString port

/-- The registry entry for a freshly spawned `AuthNode`/`ContentNode`
(`load = 0`, `conn_type` the wanted role). -/
def spawned_node (wanted : String) (newId : Nat) (spawnHost : String) (spawnPort : Nat) :
    RegEntry :=
  ⟨newId, wanted, spawnHost, spawnPort, 0⟩

/-- `BootstrapNodeThread.handle_node_request`.  Returns the reply pushed
to the requesting connection (`none` when the request is dropped) and the
updated registry. -/
def handle_node_request (requester wanted : String) (newId : Nat) (spawnHost : String)
    (spawnPort : Nat) (st : List RegEntry) : Nat → Option String × List RegEntry
  | 0 => (none, st)
  | fuel + 1 =>
    match load_balancer wanted st with
    | (some node, st') =>
      (some (node_find_success_message requester wanted node.conn_host node.conn_port), st')
    | (none, _) =>
      if wanted = "AUTH" ∨ wanted = "CONTENT" then
        handle_node_request requester wanted newId spawnHost spawnPort
          (st ++ [spawned_node wanted newId spawnHost spawnPort]) fuel
      else (none, st)

theorem load_balancer_pair {ct : String} {st : List RegEntry} :
    load_balancer ct st =
      (match pyMinByLoad (get_nodes_by_type ct st) with
       | none => (none, st)
       | some e => (some { e with load := e.load + 1 }, bumpLoad e.id st)) := rfl

/-- C7: a `NODE_REQUEST` for role `AUTH` or `CONTENT` is always answered
(spawning, registering and re-selecting when no instance exists — fuel 2
suffices, so the loop terminates) with exactly one
`NODE_FIND_SUCCESS|requester|wanted|host|port` reply whose address is the
selected node's `conn_host`/`conn_port`; a request for any other role
with no registered instance of that role is silently dropped: no reply,
and the registry is left unchanged. -/
theorem node_request_spec (requester wanted : String) (newId : Nat) (spawnHost : String)
    (spawnPort : Nat) (st : List RegEntry) (fuel : Nat) :
    ((wanted = "AUTH" ∨ wanted = "CONTENT") → 2 ≤ fuel →
      ∃ e, (e ∈ get_nodes_by_type wanted st ∨
            e = spawned_node wanted newId spawnHost spawnPort) ∧
        (handle_node_request requester wanted newId spawnHost spawnPort st fuel).1 =
          some (node_find_success_message requester wanted e.conn_host e.conn_port)) ∧
    (wanted ≠ "AUTH" → wanted ≠ "CONTENT" → get_nodes_by_type wanted st = [] →
      handle_node_request requester wanted newId spawnHost spawnPort st fuel = (none, st)) := by
  constructor
  · intro hrole hfuel
    obtain ⟨f, hf⟩ : ∃ f, fuel = f + 2 := ⟨fuel - 2, by omega⟩
    subst hf
    rw [handle_node_request]
    cases hlb : load_balancer wanted st with
    | mk o st' =>
      cases o with
      | some node =>
        obtain ⟨e, hemem, -, hee, -⟩ := load_balancer_some hlb
        refine ⟨e, Or.inl hemem, ?_⟩
        simp only
        rw [hee]
      | none =>
        -- the selection failed, so no entry of the role exists
        have hempty : get_nodes_by_type wanted st = [] := by
          rw [load_balancer_pair] at hlb
          cases hm : pyMinByLoad (get_nodes_by_type wanted st) with
          | none => exact pyMinByLoad_eq_none.mp hm
          | some e => rw [hm] at hlb; simp at hlb
        -- after the spawn, the selection finds exactly the spawned node
        have hfil : get_nodes_by_type wanted
            (st ++ [spawned_node wanted newId spawnHost spawnPort]) =
            [spawned_node wanted newId spawnHost spawnPort] := by
          rw [get_nodes_by_type, List.filter_append, ← get_nodes_by_type, hempty]
          simp [spawned_node]
        refine ⟨spawned_node wanted newId spawnHost spawnPort, Or.inr rfl, ?_⟩
        simp only
        rw [if_pos hrole, handle_node_request, load_balancer_pair, hfil]
        simp only [pyMinByLoad]
  · intro hna hnc hempty
    cases fuel with
    | zero => rfl
    | succ f =>
      rw [handle_node_request, load_balancer_none hempty]
      simp only
      rw [if_neg (by simp [hna, hnc])]

/-- Witness for `node_request_spec`: on an empty registry, an `AUTH`
request with fuel 2 is answered with the spawned node's address, and an
unknown-role request is dropped with the registry unchanged. -/
theorem node_request_spec_witness :
    (∃ e, (e ∈ get_nodes_by_type "AUTH" [] ∨ e = spawned_node "AUTH" 7 "10.0.0.5" 4242) ∧
      (handle_node_request "CLIENT" "AUTH" 7 "10.0.0.5" 4242 [] 2).1 =
        some (node_find_success_message "CLIENT" "AUTH" e.conn_host e.conn_port)) ∧
    handle_node_request "CLIENT" "CLIENT" 7 "10.0.0.5" 4242 [] 2 = (none, []) :=
  ⟨(node_request_spec "CLIENT" "AUTH" 7 "10.0.0.5" 4242 [] 2).1 (Or.inl rfl) (by omega),
   (node_request_spec "CLIENT" "CLIENT" 7 "10.0.0.5" 4242 [] 2).2
     (by decide) (by decide) (by decide)⟩

/-! ## Write driver: `NodeWriteHandler.write` (`Node.py`)

`write` first dequeues one message with `get_nowait()` (leaving the rest
of the queue untouched), then tests `key.fileobj.fileno() == -1`.  On a
dead socket it calls `self.parent_node.kill_connection()` and returns,
never sending or re-queuing the dequeued message.  `kill_connection`
(which sets `running = False`) is defined only on `NodeWriteHandler`
itself; none of the node classes that are ever passed as `parent_node` —
`BootstrapNode`, `BootstrapNodeThread`, `AuthNode`, `AuthNodeThread`,
`ContentNode`, `ContentNodeThread`, `ClientNode` — defines a
`kill_connection` method, so the call raises `AttributeError` at
runtime. -/

/-- The classes whose instances are passed to `NodeWriteHandler` as
`parent_node`. -/
def nodeClasses : List String :=
  ["BootstrapNode", "BootstrapNodeThread", "AuthNode", "AuthNodeThread",
   "ContentNode", "ContentNodeThread", "ClientNode"]

/-- The classes of the repository that define a `kill_connection` method:
only `NodeWriteHandler` does. -/
def killConnectionDefiners : List String := ["NodeWriteHandler"]

/-- State of one `NodeWriteHandler`: the outbound queue and the `running`
flag. -/
structure WriteHandlerState where
  out_buffer : List String
  running : Bool
deriving DecidableEq, Repr

/-- Observable outcome of one `NodeWriteHandler.write` call. -/
inductive WriteOutcome where
  | sent (message : String)
  | idle
  | flagKilled
  | attributeError
deriving DecidableEq, Repr

/-- `NodeWriteHandler.write`: dequeue (if possible), then — if the socket
descriptor is invalid — dispatch `parent_node.kill_connection()`, which
sets `running := False` when the parent's class defines the method and
raises `AttributeError` otherwise; on a live socket send the dequeued
message, if any. -/
def write (parentClass : String) (sockAlive : Bool) (st : WriteHandlerState) :
    WriteOutcome × WriteHandlerState :=
  let dequeued : Option String × List String :=
    match st.out_buffer with
    | [] => (none, [])
    | m :: rest => (some m, rest)
  if !sockAlive then
    if parentClass ∈ killConnectionDefiners then
      (.flagKilled, { out_buffer := dequeued.2, running := false })
    else
      (.attributeError, { out_buffer := dequeued.2, running := st.running })
  else
    match dequeued.1 with
    | some m => (.sent m, { out_buffer := dequeued.2, running := st.running })
    | none => (.idle, { out_buffer := dequeued.2, running := st.running })

/-- C9 (the code as written): when `write` runs against a dead socket for
any of the repository's node classes as parent, the dequeued message is
permanently discarded — neither sent nor returned to the queue — and the
remaining queued messages are left unchanged; but instead of setting the
`running` flag to `False`, the call raises `AttributeError` (no node
class defines `kill_connection`; the method lives on `NodeWriteHandler`
alone), so `running` is never flipped and the thread dies by exception. -/
theorem write_dead_socket (m : String) (rest : List String) (r : Bool) :
    write "AuthNodeThread" false ⟨m :: rest, r⟩ = (.attributeError, ⟨rest, r⟩) ∧
    (∀ parentClass ∈ nodeClasses,
      write parentClass false ⟨m :: rest, r⟩ = (.attributeError, ⟨rest, r⟩)) := by
  constructor
  · rfl
  · intro parentClass hmem
    fin_cases hmem <;> rfl

/-- Witness for `write_dead_socket` at a concrete queue. -/
theorem write_dead_socket_witness :
    write "AuthNodeThread" false ⟨["LOGIN_SUCCESS|c", "X"], true⟩ =
      (.attributeError, ⟨["X"], true⟩) :=
  (write_dead_socket "LOGIN_SUCCESS|c" ["X"] true).2 "AuthNodeThread" (by decide)

/-! ## Streaming frame codec (`ContentNode.py` sender, `ClientNode.py`
receiver)

Sender (`CLIENT_STREAM_MODE_ENTER` branch of
`ContentNodeThread.handle_client`): for each non-empty chunk send
`hashlib.md5(chunk).digest() + struct.pack("I", len(chunk)) + chunk`.
Receiver (`ClientNode.handle_stream_mode`): buffer bytes; once
`16 + 4` bytes are available split off the digest and the length, wait
for `length` payload bytes, recompute the MD5 over them and compare —
delivering the payload on a match and aborting the stream on a mismatch.
Bytes are `Nat` values below 256; `struct.pack("I", …)` is the
little-endian 32-bit encoding both endpoints share.  MD5 (RFC 1321) is
implemented below over `Nat` words reduced modulo `2 ^ 32`. -/

/-- `struct.unpack("I", bs)[0]` for a 4-byte buffer (little-endian). -/
def le32dec (bs : List Nat) : Nat :=
  match bs with
  | [b0, b1, b2, b3] => b0 + 256 * b1 + 65536 * b2 + 16777216 * b3
  | _ => 0

/-- `struct.pack("I", n)` (little-endian; `n < 2 ^ 32`). -/
def le32enc (n : Nat) : List Nat :=
  [n % 256, n / 256 % 256, n / 65536 % 256, n / 16777216 % 256]

theorem le32enc_length (n : Nat) : (le32enc n).length = 4 := rfl

theorem le32dec_le32enc (n : Nat) (h : n < 4294967296) : le32dec (le32enc n) = n := by
  simp only [le32enc, le32dec]
  omega

/-- The 64 MD5 sine-table constants `⌊2^32·|sin(i+1)|⌋`. -/
def md5K : List Nat :=
  [3614090360, 3905402710, 606105819, 3250441966, 4118548399, 1200080426,
   2821735955, 4249261313, 1770035416, 2336552879, 4294925233, 2304563134,
   1804603682, 4254626195, 2792965006, 1236535329, 4129170786, 3225465664,
   643717713, 3921069994, 3593408605, 38016083, 3634488961, 3889429448,
   568446438, 3275163606, 4107603335, 1163531501, 2850285829, 4243563512,
   1735328473, 2368359562, 4294588738, 2272392833, 1839030562, 4259657740,
   2763975236, 1272893353, 4139469664, 3200236656, 681279174, 3936430074,
   3572445317, 76029189, 3654602809, 3873151461, 530742520, 3299628645,
   4096336452, 1126891415, 2878612391, 4237533241, 1700485571, 2399980690,
   4293915773, 2240044497, 1873313359, 4264355552, 2734768916, 1309151649,
   4149444226, 3174756917, 718787259, 3951481745]

/-- The 64 MD5 per-round left-rotation amounts. -/
def md5S : List Nat :=
  [7, 12, 17, 22, 7, 12, 17, 22, 7, 12, 17, 22, 7, 12, 17, 22,
   5, 9, 14, 20, 5, 9, 14, 20, 5, 9, 14, 20, 5, 9, 14, 20,
   4, 11, 16, 23, 4, 11, 16, 23, 4, 11, 16, 23, 4, 11, 16, 23,
   6, 10, 15, 21, 6, 10, 15, 21, 6, 10, 15, 21, 6, 10, 15, 21]

/-- 32-bit left rotation (valid for `x < 2 ^ 32`, `0 < n < 32`). -/
def rotl32 (x n : Nat) : Nat := x % 2 ^ (32 - n) * 2 ^ n + x / 2 ^ (32 - n)

/-- MD5 round functions (`^^^ 4294967295` is 32-bit complement). -/
def md5F (b c d : Nat) : Nat := b &&& c ||| (b ^^^ 4294967295) &&& d

def md5G (b c d : Nat) : Nat := b &&& d ||| c &&& (d ^^^ 4294967295)

def md5H (b c d : Nat) : Nat := b ^^^ c ^^^ d

def md5I (b c d : Nat) : Nat := c ^^^ (b ||| (d ^^^ 4294967295))

/-- Word `j` of a 64-byte block, little-endian. -/
def md5Word (block : List Nat) (j : Nat) : Nat :=
  le32dec ((block.drop (4 * j)).take 4)

/-- One of the 64 MD5 rounds. -/
def md5Round (block : List Nat) (st : Nat × Nat × Nat × Nat) (i : Nat) :
    Nat × Nat × Nat × Nat :=
  let (a, b, c, d) := st
  let fg : Nat × Nat :=
    if i < 16 then (md5F b c d, i)
    else if i < 32 then (md5G b c d, (5 * i + 1) % 16)
    else if i < 48 then (md5H b c d, (3 * i + 5) % 16)
    else (md5I b c d, 7 * i % 16)
  let tmp := (fg.1 + a + md5K.getD i 0 + md5Word block fg.2) % 4294967296
  (d, (b + rotl32 tmp (md5S.getD i 0)) % 4294967296, b, c)

/-- Process one 64-byte block. -/
def md5Block (st : Nat × Nat × Nat × Nat) (block : List Nat) : Nat × Nat × Nat × Nat :=
  let r := (List.range 64).foldl (md5Round block) st
  ((st.1 + r.1) % 4294967296, (st.2.1 + r.2.1) % 4294967296,
   (st.2.2.1 + r.2.2.1) % 4294967296, (st.2.2.2 + r.2.2.2) % 4294967296)

/-- The 8-byte little-endian bit-length trailer. -/
def le64enc (n : Nat) : List Nat := (List.range 8).map fun i => n / 256 ^ i % 256

/-- MD5 padding: `0x80`, zeros to 56 mod 64, then the 64-bit bit length. -/
def md5Pad (msg : List Nat) : List Nat :=
  msg ++ 128 :: List.replicate ((119 - msg.length % 64) % 64) 0 ++
    le64enc (8 * msg.length % 18446744073709551616)

/-- Split a padded message into 64-byte blocks.  The recursion is driven
by fuel (each step consumes 64 bytes, so `l.length` steps always
suffice), keeping the definition computable by kernel reduction. -/
def md5BlocksLoop : Nat → List Nat → List (List Nat)
  | 0, _ => []
  | fuel + 1, l => if l = [] then [] else l.take 64 :: md5BlocksLoop fuel (l.drop 64)

def md5Blocks (l : List Nat) : List (List Nat) := md5BlocksLoop l.length l

/-- `hashlib.md5(msg).digest()`: the 16-byte MD5 digest. -/
def md5 (msg : List Nat) : List Nat :=
  let r := (md5Blocks (md5Pad msg)).foldl md5Block
    (1732584193, 4023233417, 2562383102, 271733878)
  le32enc r.1 ++ le32enc r.2.1 ++ le32enc r.2.2.1 ++ le32enc r.2.2.2

theorem md5_length (msg : List Nat) : (md5 msg).length = 16 := by
  simp [md5, le32enc]

/-- One frame as sent by the Content role:
`md5(chunk) || uint32-length || chunk`. -/
def encodeFrame (chunk : List Nat) : List Nat :=
  md5 chunk ++ le32enc chunk.length ++ chunk

/-- The full byte stream produced by the sender loop for a list of
(non-empty) chunks. -/
def encodeStream (chunks : List (List Nat)) : List Nat :=
  (chunks.map encodeFrame).flatten

/-- How the receiver's loop ends once the sender has sent everything:
`connClosed` — fewer than `16 + 4` bytes remain, so the next `recv`
returns empty and the `RuntimeError` ends the stream (the normal end on
an empty remainder); `starved` — the parsed length demands more payload
bytes than will ever arrive, so the inner `while len(data) < msg_size`
loop spins forever; `corrupt` — the recomputed digest mismatched and the
receiver aborted the stream. -/
inductive StreamEnd where
  | connClosed
  | starved
  | corrupt
deriving DecidableEq, Repr

/-- The frame loop of `ClientNode.handle_stream_mode`, driven by fuel
(each delivered frame consumes at least 20 bytes of the stream, so
`data.length` steps always suffice — `handleStreamLoop_fuel` below). -/
def handleStreamLoop : Nat → List Nat → List (List Nat) × StreamEnd
  | 0, _ => ([], .connClosed)
  | fuel + 1, data =>
    if data.length < 20 then ([], .connClosed)
    else
      let md5_checksum := data.take 16
      let rest := data.drop 16
      let msg_size := le32dec (rest.take 4)
      let rest2 := rest.drop 4
      if rest2.length < msg_size then ([], .starved)
      else
        if md5 (rest2.take msg_size) = md5_checksum then
          let r := handleStreamLoop fuel (rest2.drop msg_size)
          (rest2.take msg_size :: r.1, r.2)
        else ([], .corrupt)

/-- `ClientNode.handle_stream_mode`, applied to the complete byte stream:
returns the payloads delivered to the audio sink (`stream.write`), in
order, and how the loop ends. -/
def handle_stream_mode (data : List Nat) : List (List Nat) × StreamEnd :=
  handleStreamLoop data.length data

theorem handleStreamLoop_succ (fuel : Nat) (data : List Nat) :
    handleStreamLoop (fuel + 1) data =
      if data.length < 20 then ([], .connClosed)
      else
        if ((data.drop 16).drop 4).length < le32dec ((data.drop 16).take 4) then ([], .starved)
        else
          if md5 (((data.drop 16).drop 4).take (le32dec ((data.drop 16).take 4))) =
              data.take 16 then
            (((data.drop 16).drop 4).take (le32dec ((data.drop 16).take 4)) ::
                (handleStreamLoop fuel
                  (((data.drop 16).drop 4).drop (le32dec ((data.drop 16).take 4)))).1,
              (handleStreamLoop fuel
                (((data.drop 16).drop 4).drop (le32dec ((data.drop 16).take 4)))).2)
          else ([], .corrupt) := rfl

theorem handleStreamLoop_fuel :
    ∀ fuel data, data.length ≤ fuel → handleStreamLoop fuel data = handle_stream_mode data := by
  intro fuel
  induction fuel using Nat.strong_induction_on with
  | _ fuel ih =>
    intro data hle
    match fuel, ih, hle with
    | 0, ih, hle =>
      have hnil : data = [] := List.eq_nil_of_length_eq_zero (Nat.le_zero.mp hle)
      subst hnil
      rfl
    | f + 1, ih, hle =>
      rw [handle_stream_mode]
      by_cases h20 : data.length < 20
      · obtain ⟨L, hL⟩ : ∃ L, data.length = L := ⟨_, rfl⟩
        rw [hL]
        match L with
        | 0 => rw [handleStreamLoop_succ, if_pos h20]; rfl
        | L + 1 => rw [handleStreamLoop_succ, if_pos h20, handleStreamLoop_succ, if_pos h20]
      · obtain ⟨L, hL⟩ : ∃ L, data.length = L + 1 := ⟨data.length - 1, by omega⟩
        rw [hL, handleStreamLoop_succ, handleStreamLoop_succ, if_neg h20, if_neg h20]
        by_cases hstarve :
            ((data.drop 16).drop 4).length < le32dec ((data.drop 16).take 4)
        · rw [if_pos hstarve, if_pos hstarve]
        · rw [if_neg hstarve, if_neg hstarve]
          by_cases hmd : md5 (((data.drop 16).drop 4).take (le32dec ((data.drop 16).take 4))) =
              data.take 16
          · rw [if_pos hmd, if_pos hmd]
            have hlen : (((data.drop 16).drop 4).drop
                (le32dec ((data.drop 16).take 4))).length =
                data.length - 20 - le32dec ((data.drop 16).take 4) := by
              simp [List.length_drop]
              omega
            have hrec1 := ih f (by omega)
              (((data.drop 16).drop 4).drop (le32dec ((data.drop 16).take 4))) (by omega)
            have hrec2 := ih L (by omega)
              (((data.drop 16).drop 4).drop (le32dec ((data.drop 16).take 4))) (by omega)
            rw [hrec1, hrec2]
          · rw [if_neg hmd, if_neg hmd]

/-- Decoding one well-formed frame header `d || le32enc n || Q` with a
16-byte digest field `d`: starve when fewer than `n` payload bytes ever
arrive, otherwise compare the recomputed digest and either deliver and
continue or abort. -/
theorem handle_stream_frame (d : List Nat) (hd : d.length = 16) (n : Nat)
    (hn : n < 4294967296) (Q : List Nat) :
    handle_stream_mode (d ++ (le32enc n ++ Q)) =
      if Q.length < n then ([], .starved)
      else if md5 (Q.take n) = d then
        (Q.take n :: (handle_stream_mode (Q.drop n)).1, (handle_stream_mode (Q.drop n)).2)
      else ([], .corrupt) := by
  have htot : (d ++ (le32enc n ++ Q)).length = 20 + Q.length := by
    simp [hd, le32enc]
    omega
  rw [handle_stream_mode]
  obtain ⟨L, hL⟩ : ∃ L, (d ++ (le32enc n ++ Q)).length = L + 1 := ⟨19 + Q.length, by omega⟩
  rw [hL, handleStreamLoop_succ]
  rw [if_neg (by omega : ¬(d ++ (le32enc n ++ Q)).length < 20)]
  have htake16 : (d ++ (le32enc n ++ Q)).take 16 = d := List.take_left' hd
  have hdrop16 : (d ++ (le32enc n ++ Q)).drop 16 = le32enc n ++ Q := List.drop_left' hd
  rw [hdrop16, htake16]
  have htake4 : (le32enc n ++ Q).take 4 = le32enc n := List.take_left' (le32enc_length n)
  have hdrop4 : (le32enc n ++ Q).drop 4 = Q := List.drop_left' (le32enc_length n)
  rw [htake4, hdrop4, le32dec_le32enc n hn]
  by_cases hq : Q.length < n
  · rw [if_pos hq, if_pos hq]
  · rw [if_neg hq, if_neg hq]
    by_cases hmd : md5 (Q.take n) = d
    · rw [if_pos hmd, if_pos hmd]
      have hfits : (Q.drop n).length ≤ L := by
        simp only [List.length_drop]
        omega
      rw [handleStreamLoop_fuel L (Q.drop n) hfits]
    · rw [if_neg hmd, if_neg hmd]

theorem handle_stream_mode_frame (P rest : List Nat) (hlen : P.length < 4294967296) :
    handle_stream_mode (encodeFrame P ++ rest) =
      (P :: (handle_stream_mode rest).1, (handle_stream_mode rest).2) := by
  have hshape : encodeFrame P ++ rest = md5 P ++ (le32enc P.length ++ (P ++ rest)) := by
    simp [encodeFrame]
  rw [hshape, handle_stream_frame (md5 P) (md5_length P) P.length hlen (P ++ rest)]
  rw [if_neg (by simp : ¬(P ++ rest).length < P.length)]
  rw [List.take_left, if_pos rfl, List.drop_left]

theorem stream_roundtrip (chunks : List (List Nat))
    (h : ∀ c ∈ chunks, c.length < 4294967296) :
    handle_stream_mode (encodeStream chunks) = (chunks, .connClosed) := by
  induction chunks with
  | nil => rfl
  | cons c cs ih =>
    have hstream : encodeStream (c :: cs) = encodeFrame c ++ encodeStream cs := by
      simp [encodeStream]
    rw [hstream, handle_stream_mode_frame c _ (h c (List.mem_cons_self c cs)),
      ih fun x hx => h x (List.mem_cons_of_mem c hx)]

theorem digest_flip_aborts (P : List Nat) (hlen : P.length < 4294967296)
    (i b : Nat) (hne : (md5 P).set i b ≠ md5 P) :
    handle_stream_mode ((md5 P).set i b ++ (le32enc P.length ++ P)) = ([], .corrupt) := by
  have hd : ((md5 P).set i b).length = 16 := by
    rw [List.length_set, md5_length]
  rw [handle_stream_frame _ hd P.length hlen P]
  rw [if_neg (by omega : ¬P.length < P.length), List.take_length]
  rw [if_neg fun hcon => hne hcon.symm]

theorem payload_flip_aborts (P : List Nat) (hlen : P.length < 4294967296)
    (j b : Nat) (hne : md5 (P.set j b) ≠ md5 P) :
    handle_stream_mode (md5 P ++ (le32enc P.length ++ P.set j b)) = ([], .corrupt) := by
  rw [handle_stream_frame (md5 P) (md5_length P) P.length hlen (P.set j b)]
  have hql : (P.set j b).length = P.length := List.length_set P j b
  rw [if_neg (by omega : ¬(P.set j b).length < P.length)]
  have htake : (P.set j b).take P.length = P.set j b := by
    rw [← hql, List.take_length]
  rw [htake, if_neg hne]

/-- C3 (amended): (i) round-trip — decoding the exact byte stream the
sender emits for any sequence of non-empty chunks (each below `2^32`
bytes) delivers exactly those payloads to the audio sink and ends the
stream normally when the sender closes; (ii) changing any byte of a
frame's 16-byte digest field (any rewrite of the digest that alters it)
makes the receiver's recomputed digest differ, and it aborts the stream
delivering nothing; (iii) changing a payload byte does the same whenever
the corrupted payload's MD5 differs from the transmitted digest (true of
every known pair of equal-length inputs differing in one byte, though
not a provable property of MD5).  A flip in the 4-byte length field is
*not* covered: it can instead leave the receiver waiting forever — see
the counterexample. -/
theorem stream_codec_spec :
    (∀ chunks : List (List Nat), (∀ c ∈ chunks, c ≠ [] ∧ c.length < 4294967296) →
      handle_stream_mode (encodeStream chunks) = (chunks, .connClosed)) ∧
    (∀ (P : List Nat) (i b : Nat), P.length < 4294967296 → (md5 P).set i b ≠ md5 P →
      handle_stream_mode ((md5 P).set i b ++ (le32enc P.length ++ P)) = ([], .corrupt)) ∧
    (∀ (P : List Nat) (j b : Nat), P.length < 4294967296 → md5 (P.set j b) ≠ md5 P →
      handle_stream_mode (md5 P ++ (le32enc P.length ++ P.set j b)) = ([], .corrupt)) :=
  ⟨fun chunks h => stream_roundtrip chunks fun c hc => (h c hc).2,
   fun P i b hlen hne => digest_flip_aborts P hlen i b hne,
   fun P j b hlen hne => payload_flip_aborts P hlen j b hne⟩

/-- Witness for `stream_codec_spec` at the concrete chunk `[1, 2, 3, 4]`:
the encoded stream decodes back to the chunk; zeroing the first digest
byte aborts with nothing delivered; and flipping the first payload byte
(whose MD5 differs) likewise aborts. -/
theorem stream_codec_spec_witness :
    handle_stream_mode (encodeStream [[1, 2, 3, 4]]) = ([[1, 2, 3, 4]], .connClosed) ∧
    handle_stream_mode ((md5 [1, 2, 3, 4]).set 0 0 ++
      (le32enc ([1, 2, 3, 4] : List Nat).length ++ [1, 2, 3, 4])) = ([], .corrupt) ∧
    handle_stream_mode (md5 [1, 2, 3, 4] ++
      (le32enc ([1, 2, 3, 4] : List Nat).length ++ [1, 2, 3, 4].set 0 0)) = ([], .corrupt) :=
  ⟨stream_codec_spec.1 [[1, 2, 3, 4]] (by decide),
   stream_codec_spec.2.1 [1, 2, 3, 4] 0 0 (by decide) (by decide),
   stream_codec_spec.2.2 [1, 2, 3, 4] 0 0 (by decide) (by decide)⟩

/-- C3 counterexample: flipping a single byte of the *length field* need
not produce a digest-mismatch abort.  In the frame for payload
`[1, 2, 3, 4]`, byte 16 (the low length byte) is `4`; flipping its lowest
bit to `5` makes the receiver wait for a fifth payload byte that never
arrives: nothing is delivered and the receiver starves in its inner
`recv` loop instead of aborting on a digest mismatch. -/
theorem stream_length_flip_counterexample :
    (encodeFrame [1, 2, 3, 4]).getD 16 0 = 4 ∧
    (encodeFrame [1, 2, 3, 4]).set 16 5 ≠ encodeFrame [1, 2, 3, 4] ∧
    handle_stream_mode ((encodeFrame [1, 2, 3, 4]).set 16 5) = ([], .starved) := by
  refine ⟨by decide, by decide, by decide⟩

end SpotifyClone
